import Mathlib

/-!
Verification of the directive-driven summing interpreter (`sum_cli.py`).

The source program reads a text file of integer literals and directives
(`@base`, `@include`, `@range`), and produces one aggregate sum.  This file
gives a shallow embedding of that program and proves/refutes the frozen
claims about it.

Modelling conventions:
* Python strings are `List Char`; Python `int` is Lean `Int` (Python ints are
  arbitrary precision); Python `//` (floor division) is `Int.fdiv`.
* The filesystem is the abstract collaborator the spec names: a structure
  with `resolve` (models `Path.resolve()`, `none` = the call raised),
  `pathExists` (models `Path.exists()`) and `read` (models
  `Path.read_text()`, `none` = the call raised `FileNotFoundError`).
* Python exceptions are explicit error values.  `ValueError` raised by
  `_parse_int_token` is modelled by `Option.none` where it is caught, and by
  the `EvalErr.valueError` constructor where it escapes (the `@range` branch
  lets it propagate uncaught).
* Recursion over included files is driven by a fuel parameter; exhausting
  fuel is a distinct outcome (`none`), not an error of the program.
* Unicode-dependent behaviour of `str.isspace`, `str.splitlines`,
  `str.lower` and `int()` is embedded explicitly below; `pyToLower` models
  `str.lower` on ASCII letters only (the directive keywords at issue are
  ASCII), and `pyDigitVal` carries the Unicode decimal-digit (category Nd)
  ranges that CPython's `int()` accepts.
-/

/-! ## Character classes -/

/-- Python `str.isspace` for a single character (the `Py_UNICODE_ISSPACE`
set): ASCII whitespace, the C1/Unicode space characters. -/
def pyIsSpace (c : Char) : Bool :=
  let n := c.toNat
  n = 0x20 || (0x9 ≤ n && n ≤ 0xD) || (0x1C ≤ n && n ≤ 0x1F) ||
  n = 0x85 || n = 0xA0 || n = 0x1680 || (0x2000 ≤ n && n ≤ 0x200A) ||
  n = 0x2028 || n = 0x2029 || n = 0x202F || n = 0x205F || n = 0x3000

/-- The line-boundary characters of Python `str.splitlines`. -/
def isLineBreak (c : Char) : Bool :=
  let n := c.toNat
  n = 0xA || n = 0xB || n = 0xC || n = 0xD || n = 0x1C || n = 0x1D || n = 0x1E ||
  n = 0x85 || n = 0x2028 || n = 0x2029

/-- Python `str.lower`, restricted to ASCII letters (sufficient for the
directive keywords, which are matched against ASCII literals). -/
def pyToLower (c : Char) : Char :=
  if c.toNat ≤ 0x5A && 0x41 ≤ c.toNat then Char.ofNat (c.toNat + 32) else c

/-- First code points of the Unicode decimal-digit (category Nd) blocks:
each block is ten consecutive code points valued 0..9.  CPython's `int()`
maps these to ASCII digits before parsing
(`_PyUnicode_TransformDecimalAndSpaceToASCII`). -/
def ndDigitZeros : List Nat :=
  [0x660, 0x6F0, 0x7C0, 0x966, 0x9E6, 0xA66, 0xAE6, 0xB66, 0xBE6, 0xC66,
   0xCE6, 0xD66, 0xDE6, 0xE50, 0xED0, 0xF20, 0x1040, 0x1090, 0x17E0, 0x1810,
   0x1946, 0x19D0, 0x1A80, 0x1A90, 0x1B50, 0x1BB0, 0x1C40, 0x1C50, 0xA620,
   0xA8D0, 0xA900, 0xA9D0, 0xA9F0, 0xAA50, 0xABF0, 0xFF10, 0x104A0, 0x10D30,
   0x11066, 0x110F0, 0x11136, 0x111D0, 0x112F0, 0x11450, 0x114D0, 0x11650,
   0x116C0, 0x11730, 0x118E0, 0x11950, 0x11C50, 0x11D50, 0x11DA0, 0x16A60,
   0x16B50, 0x1D7CE, 0x1D7D8, 0x1D7E2, 0x1D7EC, 0x1D7F6, 0x1E140, 0x1E2F0,
   0x1E950, 0x1FBF0]

/-- The digit value a character contributes in CPython `int(s, base)`:
ASCII digits and letters give 0..35, Unicode decimal digits give 0..9,
anything else is not a digit. -/
def pyDigitVal (c : Char) : Option Nat :=
  let n := c.toNat
  if 0x30 ≤ n && n ≤ 0x39 then some (n - 0x30)
  else if 0x61 ≤ n && n ≤ 0x7A then some (n - 0x61 + 10)
  else if 0x41 ≤ n && n ≤ 0x5A then some (n - 0x41 + 10)
  else
    match ndDigitZeros.find? (fun z => z ≤ n && n < z + 10) with
    | some z => some (n - z)
    | none => none

/-- ASCII-only digit value, as the spec's Token Parsing paragraph words it
(digits `0`-`9` extended by `A`-`Z`/`a`-`z`; ASCII only). -/
def asciiDigitVal (c : Char) : Option Nat :=
  let n := c.toNat
  if 0x30 ≤ n && n ≤ 0x39 then some (n - 0x30)
  else if 0x61 ≤ n && n ≤ 0x7A then some (n - 0x61 + 10)
  else if 0x41 ≤ n && n ≤ 0x5A then some (n - 0x41 + 10)
  else none

/-! ## String helpers of the source (`_strip_*`, `_split_*`) -/

/-- Python `str.strip()` with no argument: drop whitespace at both ends. -/
def pyStrip (cs : List Char) : List Char :=
  ((cs.dropWhile pyIsSpace).reverse.dropWhile pyIsSpace).reverse

/-- `_strip_separators`: `token.replace("_", "").replace(",", "")`. -/
def stripSeparators (cs : List Char) : List Char :=
  cs.filter (fun c => !(c == '_' || c == ','))

/-- `_strip_utf8_bom`: `if s.startswith("﻿"): return s.lstrip("﻿")`.
Note `str.lstrip` removes every leading character of its argument set. -/
def stripUtf8Bom (cs : List Char) : List Char :=
  if cs.head? == some '﻿' then cs.dropWhile (fun c => c == '﻿') else cs

/-- Worker for `pySplitlines`; `acc` holds the current line reversed. -/
def pySplitlinesGo (acc : List Char) : List Char → List (List Char)
  | [] => if acc.isEmpty then [] else [acc.reverse]
  | '\r' :: '\n' :: rest => acc.reverse :: pySplitlinesGo [] rest
  | c :: rest =>
    if isLineBreak c then acc.reverse :: pySplitlinesGo [] rest
    else pySplitlinesGo (c :: acc) rest

/-- Python `str.splitlines()`: split on every line boundary (with `\r\n` as
one boundary); a trailing boundary yields no trailing empty line. -/
def pySplitlines (cs : List Char) : List (List Char) :=
  pySplitlinesGo [] cs

/-- `_read_lines` applied to already-read text: strip the BOM, split lines. -/
def readLinesOfText (txt : List Char) : List (List Char) :=
  pySplitlines (stripUtf8Bom txt)

/-- Python `s.split(maxsplit=1)` with default (whitespace-run) separator:
at most two fields, the remainder keeps its trailing text verbatim. -/
def pySplit1 (cs : List Char) : List (List Char) :=
  let cs1 := cs.dropWhile pyIsSpace
  if cs1.isEmpty then []
  else
    let tok := cs1.takeWhile (fun c => !pyIsSpace c)
    let rest := (cs1.dropWhile (fun c => !pyIsSpace c)).dropWhile pyIsSpace
    if rest.isEmpty then [tok] else [tok, rest]

/-- Worker for `splitInlineComment`: `prev` is the previous character; cut
at the first `#` whose predecessor is whitespace. -/
def sicGo (prev : Char) : List Char → List Char
  | [] => []
  | c :: rest => if c == '#' && pyIsSpace prev then [] else c :: sicGo c rest

/-- `_split_inline_comment`: a `#` at position 0 yields `""`; otherwise the
line is cut just before the first `#` preceded by a whitespace character. -/
def splitInlineComment : List Char → List Char
  | [] => []
  | c :: rest => if c == '#' then [] else c :: sicGo c rest

/-- `spec.split("..", 1)` preceded by the `".." in spec` test: `none` when
the substring `..` does not occur, otherwise the pieces around its first
occurrence. -/
def splitDotsFirst : List Char → Option (List Char × List Char)
  | [] => none
  | '.' :: '.' :: rest => some ([], rest)
  | c :: rest =>
    match splitDotsFirst rest with
    | some (x, y) => some (c :: x, y)
    | none => none

/-! ## CPython `int(s, base)` -/

/-- The optional radix prefix `int()` accepts when the base matches:
`0x`/`0X` for 16, `0o`/`0O` for 8, `0b`/`0B` for 2. -/
def dropRadixPrefix (base : Nat) (cs : List Char) : Bool × List Char :=
  if base = 16 then
    match cs with
    | '0' :: 'x' :: rest => (true, rest)
    | '0' :: 'X' :: rest => (true, rest)
    | _ => (false, cs)
  else if base = 8 then
    match cs with
    | '0' :: 'o' :: rest => (true, rest)
    | '0' :: 'O' :: rest => (true, rest)
    | _ => (false, cs)
  else if base = 2 then
    match cs with
    | '0' :: 'b' :: rest => (true, rest)
    | '0' :: 'B' :: rest => (true, rest)
    | _ => (false, cs)
  else (false, cs)

/-- Digit loop of `int()`: after the first digit, a single `_` may separate
digits (an `_` must be followed by a digit and the string must end in a
digit). -/
def pyDigitLoop (base : Nat) (acc : Nat) : List Char → Option Nat
  | [] => some acc
  | c :: rest =>
    if c == '_' then
      match rest with
      | [] => none
      | c2 :: rest2 =>
        match pyDigitVal c2 with
        | some v => if v < base then pyDigitLoop base (acc * base + v) rest2 else none
        | none => none
    else
      match pyDigitVal c with
      | some v => if v < base then pyDigitLoop base (acc * base + v) rest else none
      | none => none

/-- The digit sequence must start with a digit valid in the base. -/
def pyDigitStart (base : Nat) : List Char → Option Nat
  | [] => none
  | c :: rest =>
    match pyDigitVal c with
    | some v => if v < base then pyDigitLoop base v rest else none
    | none => none

/-- Digit sequence with the `int()` underscore rule; directly after a radix
prefix one leading `_` is permitted (`0x_ff`). -/
def pyDigitSeq (base : Nat) (afterPrefix : Bool) (cs : List Char) : Option Nat :=
  match cs with
  | '_' :: rest => if afterPrefix then pyDigitStart base rest else none
  | _ => pyDigitStart base cs

/-- CPython `int(s, base)` for `2 ≤ base ≤ 36`: strip whitespace, optional
single sign, optional matching radix prefix, then a nonempty digit
sequence; `none` models the `ValueError` raise. -/
def pyIntOfString (s : List Char) (base : Nat) : Option Int :=
  let t := pyStrip s
  let signSplit : Bool × List Char :=
    match t with
    | '+' :: r => (false, r)
    | '-' :: r => (true, r)
    | r => (false, r)
  let pre := dropRadixPrefix base signSplit.2
  match pyDigitSeq base pre.1 pre.2 with
  | none => none
  | some n => some (if signSplit.1 then -(n : Int) else (n : Int))

/-- `_parse_int_token`: strip the token, remove separators, reject the empty
remainder, then `int(t, base)`; `none` models the `ValueError` raise. -/
def parseIntToken (token : List Char) (base : Nat) : Option Int :=
  let t := stripSeparators (pyStrip token)
  if t.isEmpty then none
  else pyIntOfString t base

/-! ## Range arithmetic -/

/-- `_sum_inclusive_range`: order the endpoints, then the closed form
`n * (lo + hi) // 2` with Python floor division. -/
def sumInclusiveRange (a b : Int) : Int :=
  let lo := if a ≤ b then a else b
  let hi := if a ≤ b then b else a
  let n := hi - lo + 1
  Int.fdiv (n * (lo + hi)) 2

/-! ## Paths and the filesystem collaborator -/

/-- A POSIX `pathlib.Path` value: an absolute flag plus components.
`pathlib` drops empty and `.` components when parsing, so equal displayed
paths compare equal. -/
structure PyPath where
  absolute : Bool
  comps : List (List Char)
deriving DecidableEq

/-- `Path(text)` on POSIX: absolute iff the text starts with `/`;
components are the nonempty, non-`.` fields between slashes. -/
def pathFromString (s : List Char) : PyPath :=
  { absolute := s.head? == some '/',
    comps := (s.splitOn '/').filter (fun p => !p.isEmpty && !(p == ['.'])) }

/-- `Path.parent`: drop the last component (the parent of `.` or `/` is
itself, which dropping from an empty component list models). -/
def parentPath (p : PyPath) : PyPath :=
  { p with comps := p.comps.dropLast }

/-- `p / q` on paths: an absolute right operand replaces the left. -/
def joinPath (p q : PyPath) : PyPath :=
  if q.absolute then q else { absolute := p.absolute, comps := p.comps ++ q.comps }

/-- Lines 121-123 of the source: parse the include text; a relative path is
joined onto the including file's parent directory. -/
def resolveInclude (includer : PyPath) (incText : List Char) : PyPath :=
  let ip := pathFromString incText
  if ip.absolute then ip else joinPath (parentPath includer) ip

/-- The filesystem collaborator: `resolve` models `Path.resolve()` (`none`
= raised), `pathExists` models `Path.exists()`, `read` models
`Path.read_text()` (`none` = raised `FileNotFoundError`). -/
structure FS where
  resolve : PyPath → Option PyPath
  pathExists : PyPath → Bool
  read : PyPath → Option (List Char)

/-- Lines 77-80: `path.resolve()` with fallback to the raw path. -/
def resolveId (fs : FS) (p : PyPath) : PyPath :=
  (fs.resolve p).getD p

/-! ## The evaluator -/

/-- The exceptions of the source, as a closed variant type.  `valueError`
is the raw `ValueError` that `main` does not catch. -/
inductive EvalErr where
  | parseError (msg : List Char)
  | includeIOError (p : PyPath)
  | includeCycleError (chain : List PyPath)
  | fileNotFoundError (p : PyPath)
  | valueError (msg : List Char)
deriving DecidableEq

/-- Outcome of processing one line: continue with updated state, raise, or
(model artifact) the recursive include ran out of fuel. -/
inductive StepRes where
  | cont (total : Int) (base : Nat) (stack : List PyPath)
  | err (e : EvalErr) (stack : List PyPath)
  | fuelOut (stack : List PyPath)
deriving DecidableEq

/-- The recursion stack carried by a step outcome. -/
def StepRes.stk : StepRes → List PyPath
  | .cont _ _ st => st
  | .err _ st => st
  | .fuelOut st => st

/-- The `@base` branch (lines 103-113) given the argument text `rem`. -/
def evalBaseDir (rem : List Char) (total : Int) (base : Nat) (stack : List PyPath) :
    StepRes :=
  match pyIntOfString (pyStrip rem) 10 with
  | none => .err (.parseError "@base argument must be an integer".toList) stack
  | some v =>
    if 2 ≤ v ∧ v ≤ 36 then .cont total v.toNat stack
    else .err (.parseError "@base must be in the range 2..36".toList) stack

/-- The `@include` branch (lines 115-127) given the argument text `rem`:
resolve against the including file's parent, check existence, recurse with
the current base, add the result. -/
def evalIncludeDir
    (evalInc : PyPath → Nat → List PyPath → Option (Except EvalErr Int) × List PyPath)
    (fs : FS) (path : PyPath) (rem : List Char)
    (total : Int) (base : Nat) (stack : List PyPath) : StepRes :=
  let incText := pyStrip rem
  if incText.isEmpty then
    .err (.parseError "@include requires a non-empty path".toList) stack
  else
    let ip := resolveInclude path incText
    if fs.pathExists ip then
      match evalInc ip base stack with
      | (some (.ok v), stack2) => .cont (total + v) base stack2
      | (some (.error e), stack2) => .err e stack2
      | (none, stack2) => .fuelOut stack2
    else .err (.includeIOError ip) stack

/-- The `@range` branch (lines 129-139) given the argument text `rem`.
The two `_parse_int_token` calls are not guarded by a `try`, so their
`ValueError` propagates (`EvalErr.valueError`). -/
def evalRangeDir (rem : List Char) (total : Int) (base : Nat) (stack : List PyPath) :
    StepRes :=
  match splitDotsFirst (pyStrip rem) with
  | none => .err (.parseError "@range must be of the form A..B".toList) stack
  | some (aS, bS) =>
    match parseIntToken aS base with
    | none => .err (.valueError "invalid integer token in @range".toList) stack
    | some a =>
      match parseIntToken bS base with
      | none => .err (.valueError "invalid integer token in @range".toList) stack
      | some b => .cont (total + sumInclusiveRange a b) base stack

/-- The data-line branch (lines 143-154): strip the inline comment from the
raw line, skip if empty, else parse; a failed parse is fatal only in strict
mode. -/
def evalDataLine (strict : Bool) (raw : List Char)
    (total : Int) (base : Nat) (stack : List PyPath) : StepRes :=
  let data := pyStrip (splitInlineComment raw)
  if data.isEmpty then .cont total base stack
  else
    match parseIntToken data base with
    | some v => .cont (total + v) base stack
    | none =>
      if strict then .err (.parseError ("invalid integer token: ".toList ++ data)) stack
      else .cont total base stack

/-- The directive part of the loop body (lines 98-141), given
`parts = stripped.split(maxsplit=1)`.  `evalInc` is the recursive
evaluation of an included file, receiving the current base and the
recursion stack.  Each recognised command raises its own argument-count
message, and an unrecognised command is a `ParseError`, exactly as in the
source. -/
def evalDirectiveLine
    (evalInc : PyPath → Nat → List PyPath → Option (Except EvalErr Int) × List PyPath)
    (fs : FS) (path : PyPath) (parts : List (List Char))
    (total : Int) (base : Nat) (stack : List PyPath) : StepRes :=
  let cmd := (parts.headD []).map pyToLower
  match parts with
  | [_, rem] =>
    if cmd = "@base".toList then evalBaseDir rem total base stack
    else if cmd = "@include".toList then evalIncludeDir evalInc fs path rem total base stack
    else if cmd = "@range".toList then evalRangeDir rem total base stack
    else .err (.parseError ("unknown directive: ".toList ++ cmd)) stack
  | _ =>
    if cmd = "@base".toList then .err (.parseError "@base requires an argument".toList) stack
    else if cmd = "@include".toList then .err (.parseError "@include requires a path".toList) stack
    else if cmd = "@range".toList then .err (.parseError "@range requires A..B".toList) stack
    else .err (.parseError ("unknown directive: ".toList ++ cmd)) stack

/-- The loop body of `_eval_file` (lines 91-154) for one raw line:
skip blanks and whole-line comments, process `@` lines as directives,
anything else as a data line. -/
def evalLine (evalInc : PyPath → Nat → List PyPath → Option (Except EvalErr Int) × List PyPath)
    (fs : FS) (path : PyPath) (strict : Bool) (raw : List Char)
    (total : Int) (base : Nat) (stack : List PyPath) : StepRes :=
  let stripped := pyStrip raw
  if stripped.isEmpty then .cont total base stack
  else if stripped.head? == some '#' then .cont total base stack
  else if stripped.head? == some '@' then
    evalDirectiveLine evalInc fs path (pySplit1 stripped) total base stack
  else evalDataLine strict raw total base stack

/-- The line loop of `_eval_file`: fold `evalLine` over the lines, starting
from `total` and `base`, threading the recursion stack. -/
def evalLines (evalInc : PyPath → Nat → List PyPath → Option (Except EvalErr Int) × List PyPath)
    (fs : FS) (path : PyPath) (strict : Bool) :
    List (List Char) → Int → Nat → List PyPath → Option (Except EvalErr Int) × List PyPath
  | [], total, _, stack => (some (.ok total), stack)
  | raw :: rest, total, base, stack =>
    match evalLine evalInc fs path strict raw total base stack with
    | .cont t b st => evalLines evalInc fs path strict rest t b st
    | .err e st => (some (.error e), st)
    | .fuelOut st => (none, st)

/-- `_eval_file`: resolve the identity, fail on a cycle, push, read and
evaluate the lines (includes recurse with one unit of fuel less), and pop
the pushed identity on every exit.  The first component is `none` exactly
when fuel ran out (model artifact); the second is the recursion stack after
the call. -/
def evalFile : Nat → FS → PyPath → Nat → Bool → List PyPath →
    Option (Except EvalErr Int) × List PyPath
  | 0, _, _, _, _, stack => (none, stack)
  | fuel + 1, fs, path, base, strict, stack =>
    let resolved := resolveId fs path
    if resolved ∈ stack then
      (some (.error (.includeCycleError (stack ++ [resolved]))), stack)
    else
      let stack1 := stack ++ [resolved]
      let body : Option (Except EvalErr Int) × List PyPath :=
        match fs.read path with
        | none => (some (.error (.fileNotFoundError path)), stack1)
        | some txt =>
          evalLines (fun p b st => evalFile fuel fs p b strict st) fs path strict
            (readLinesOfText txt) 0 base stack1
      (body.1, body.2.dropLast)

/-- The observable outcomes of `main` (lines 180-205): which handler fired,
or `uncaught` when the raised exception matches none of the four `except`
clauses and escapes as a traceback. -/
inductive RunOutcome where
  | badBase
  | topLevelNotFound (p : PyPath)
  | sumOk (n : Int)
  | errCycle (chain : List PyPath)
  | errIncludeMissing (p : PyPath)
  | errParse (msg : List Char)
  | errFileNotFound (p : PyPath)
  | uncaught (msg : List Char)
  | outOfFuel
deriving DecidableEq

/-- `main` after argument parsing: validate the base, check the top-level
file exists before any evaluation, then evaluate and dispatch on the error
kind exactly as the `except` clauses do. -/
def runMain (fuel : Nat) (fs : FS) (input : PyPath) (base : Nat) (strict : Bool) :
    RunOutcome :=
  if ¬ (2 ≤ base ∧ base ≤ 36) then .badBase
  else if !fs.pathExists input then .topLevelNotFound input
  else
    match (evalFile fuel fs input base strict []).1 with
    | some (.ok n) => .sumOk n
    | some (.error (.includeCycleError c)) => .errCycle c
    | some (.error (.includeIOError p)) => .errIncludeMissing p
    | some (.error (.parseError m)) => .errParse m
    | some (.error (.fileNotFoundError p)) => .errFileNotFound p
    | some (.error (.valueError m)) => .uncaught m
    | none => .outOfFuel

/-! ## Spec-side token predicates (for claim C5) -/

/-- The token grammar exactly as claim C5 words it: after removing every
`_` and `,` separator, an optional leading sign followed by one or more
ASCII digits valid in the base. -/
def claimValidToken (token : List Char) (base : Nat) : Bool :=
  let u := stripSeparators token
  let u1 :=
    match u with
    | '+' :: r => r
    | '-' :: r => r
    | r => r
  !u1.isEmpty && u1.all (fun c =>
    match asciiDigitVal c with
    | some v => decide (v < base)
    | none => false)

/-! ## Concrete filesystem fixtures for closed evaluations -/

/-- A filesystem holding exactly the given (path string, contents) pairs,
with `resolve` the identity (canonicalisation succeeds and is stable). -/
def fsOfPairs (files : List (String × String)) : FS :=
  { resolve := fun p => some p
    pathExists := fun p => (files.map (fun f => pathFromString f.1.toList)).contains p
    read := fun p =>
      (files.find? (fun f => pathFromString f.1.toList == p)).map (fun f => f.2.toList) }

/-- Shorthand for building a path from a string literal. -/
def pathOfString (s : String) : PyPath :=
  pathFromString s.toList

/-! ## Helper lemmas: line dispatch -/

lemma pyStrip_head_cons {raw : List Char} {c : Char} (h : (pyStrip raw).head? = some c) :
    ∃ tl, pyStrip raw = c :: tl := by
  cases hs : pyStrip raw with
  | nil => rw [hs] at h; cases h
  | cons a tl =>
    rw [hs] at h
    simp only [List.head?] at h
    exact ⟨tl, by rw [Option.some.injEq] at h; rw [h]⟩

/-- An `@`-line is handled by the directive processor applied to
`split(maxsplit=1)` of the stripped line. -/
lemma evalLine_directive_dispatch (evalInc) (fs : FS) (path : PyPath) (strict : Bool)
    (raw : List Char) (total : Int) (base : Nat) (stack : List PyPath)
    (h1 : (pyStrip raw).head? = some '@') :
    evalLine evalInc fs path strict raw total base stack =
      evalDirectiveLine evalInc fs path (pySplit1 (pyStrip raw)) total base stack := by
  obtain ⟨tl, hs⟩ := pyStrip_head_cons h1
  simp only [evalLine, hs, List.isEmpty_cons, List.head?]
  simp

/-- With an argument present, the `@include` command selects the include
branch. -/
lemma evalDirectiveLine_include (evalInc) (fs : FS) (path : PyPath)
    (c0 rem : List Char) (total : Int) (base : Nat) (stack : List PyPath)
    (h3 : c0.map pyToLower = "@include".toList) :
    evalDirectiveLine evalInc fs path [c0, rem] total base stack =
      evalIncludeDir evalInc fs path rem total base stack := by
  simp only [evalDirectiveLine, List.headD_cons, h3]
  simp

/-- With an argument present, the `@range` command selects the range
branch. -/
lemma evalDirectiveLine_range (evalInc) (fs : FS) (path : PyPath)
    (c0 rem : List Char) (total : Int) (base : Nat) (stack : List PyPath)
    (h3 : c0.map pyToLower = "@range".toList) :
    evalDirectiveLine evalInc fs path [c0, rem] total base stack =
      evalRangeDir rem total base stack := by
  simp only [evalDirectiveLine, List.headD_cons, h3]
  simp

lemma evalLine_data_dispatch (evalInc) (fs : FS) (path : PyPath) (strict : Bool)
    (raw : List Char) (total : Int) (base : Nat) (stack : List PyPath)
    (h1 : ¬(pyStrip raw).isEmpty)
    (h2 : (pyStrip raw).head? ≠ some '#')
    (h3 : (pyStrip raw).head? ≠ some '@') :
    evalLine evalInc fs path strict raw total base stack =
      evalDataLine strict raw total base stack := by
  simp only [evalLine]
  rw [if_neg (by simpa using h1), if_neg (by simpa using h2), if_neg (by simpa using h3)]

/-! ## Helper lemmas: the recursion stack is restored on every exit -/

lemma evalBaseDir_stk (rem : List Char) (total : Int) (base : Nat) (stack : List PyPath) :
    (evalBaseDir rem total base stack).stk = stack := by
  simp only [evalBaseDir]
  split
  · rfl
  · split <;> rfl

lemma evalRangeDir_stk (rem : List Char) (total : Int) (base : Nat) (stack : List PyPath) :
    (evalRangeDir rem total base stack).stk = stack := by
  simp only [evalRangeDir]
  repeat' split
  all_goals rfl

lemma evalDataLine_stk (strict : Bool) (raw : List Char)
    (total : Int) (base : Nat) (stack : List PyPath) :
    (evalDataLine strict raw total base stack).stk = stack := by
  simp only [evalDataLine]
  repeat' split
  all_goals rfl

lemma evalIncludeDir_stk (evalInc) (fs : FS) (path : PyPath) (rem : List Char)
    (total : Int) (base : Nat) (stack : List PyPath)
    (hInc : ∀ p b st, (evalInc p b st).2 = st) :
    (evalIncludeDir evalInc fs path rem total base stack).stk = stack := by
  simp only [evalIncludeDir]
  split
  · rfl
  · split
    · split <;>
        (rename_i heq
         simp only [StepRes.stk]
         have h := hInc (resolveInclude path (pyStrip rem)) base stack
         rw [heq] at h
         exact h)
    · rfl

lemma evalDirectiveLine_stk (evalInc) (fs : FS) (path : PyPath)
    (parts : List (List Char)) (total : Int) (base : Nat) (stack : List PyPath)
    (hInc : ∀ p b st, (evalInc p b st).2 = st) :
    (evalDirectiveLine evalInc fs path parts total base stack).stk = stack := by
  simp only [evalDirectiveLine]
  split
  · split
    · exact evalBaseDir_stk _ _ _ _
    · split
      · exact evalIncludeDir_stk _ _ _ _ _ _ _ hInc
      · split
        · exact evalRangeDir_stk _ _ _ _
        · rfl
  · repeat' split
    all_goals rfl

lemma evalLine_stk (evalInc) (fs : FS) (path : PyPath) (strict : Bool)
    (raw : List Char) (total : Int) (base : Nat) (stack : List PyPath)
    (hInc : ∀ p b st, (evalInc p b st).2 = st) :
    (evalLine evalInc fs path strict raw total base stack).stk = stack := by
  simp only [evalLine]
  split
  · rfl
  · split
    · rfl
    · split
      · exact evalDirectiveLine_stk _ _ _ _ _ _ _ hInc
      · exact evalDataLine_stk _ _ _ _ _

lemma evalLines_stack (evalInc) (fs : FS) (path : PyPath) (strict : Bool)
    (hInc : ∀ p b st, (evalInc p b st).2 = st) :
    ∀ (lines : List (List Char)) (total : Int) (base : Nat) (stack : List PyPath),
      (evalLines evalInc fs path strict lines total base stack).2 = stack := by
  intro lines
  induction lines with
  | nil => intro total base stack; rfl
  | cons raw rest ih =>
    intro total base stack
    have hline := evalLine_stk evalInc fs path strict raw total base stack hInc
    simp only [evalLines]
    split
    · rename_i t b st heq
      rw [heq] at hline
      simp only [StepRes.stk] at hline
      rw [ih t b st, hline]
    · rename_i e st heq
      rw [heq] at hline
      simp only [StepRes.stk] at hline
      simpa using hline
    · rename_i st heq
      rw [heq] at hline
      simp only [StepRes.stk] at hline
      simpa using hline

/-- Lines 86 and 157-158: the pushed identity is popped on every exit
path, so any call to `_eval_file` returns with the recursion stack it was
given. -/
lemma evalFile_stack :
    ∀ (fuel : Nat) (fs : FS) (p : PyPath) (base : Nat) (strict : Bool)
      (stack : List PyPath),
      (evalFile fuel fs p base strict stack).2 = stack := by
  intro fuel
  induction fuel with
  | zero => intros; rfl
  | succ n ih =>
    intro fs p base strict stack
    simp only [evalFile]
    split
    · rfl
    · cases hr : fs.read p with
      | none => simp [hr, List.dropLast_concat]
      | some txt =>
        have hb := evalLines_stack (fun q b st => evalFile n fs q b strict st) fs p strict
          (fun q b st => ih fs q b strict st) (readLinesOfText txt) 0 base
          (stack ++ [resolveId fs p])
        simp [hr, hb, List.dropLast_concat]

/-! ## Helper lemmas: closed-form range summation -/

lemma Icc_int_insert_top (lo hi : Int) (h : lo ≤ hi + 1) :
    Finset.Icc lo (hi + 1) = insert (hi + 1) (Finset.Icc lo hi) := by
  ext x
  simp only [Finset.mem_Icc, Finset.mem_insert]
  omega

lemma two_mul_sum_Icc (k : Nat) : ∀ lo : Int,
    2 * (∑ i in Finset.Icc lo (lo + (k : Int)), i) = ((k : Int) + 1) * (2 * lo + k) := by
  induction k with
  | zero => intro lo; simp
  | succ n ih =>
    intro lo
    have hcast : (lo + ((n + 1 : Nat) : Int)) = (lo + (n : Int)) + 1 := by push_cast; ring
    rw [hcast, Icc_int_insert_top lo (lo + (n : Int)) (by omega),
      Finset.sum_insert (by simp only [Finset.mem_Icc]; omega)]
    rw [mul_add, ih lo]
    push_cast
    ring

lemma sumInclusiveRange_eq (a b : Int) :
    sumInclusiveRange a b = ∑ i in Finset.Icc (min a b) (max a b), i := by
  rcases le_or_lt a b with h | h
  · obtain ⟨k, hk⟩ := Int.le.dest h
    simp only [sumInclusiveRange, if_pos h, min_eq_left h, max_eq_right h]
    rw [← hk]
    have h1 : (a + (k : Int) - a + 1) * (a + (a + (k : Int))) =
        2 * (∑ i in Finset.Icc a (a + (k : Int)), i) := by
      rw [two_mul_sum_Icc k a]; ring
    rw [h1, Int.mul_fdiv_cancel_left _ (by norm_num)]
  · have h2 : b ≤ a := le_of_lt h
    obtain ⟨k, hk⟩ := Int.le.dest h2
    simp only [sumInclusiveRange, if_neg (not_le.mpr h), min_eq_right h2, max_eq_left h2]
    rw [← hk]
    have h1 : (b + (k : Int) - b + 1) * (b + (b + (k : Int))) =
        2 * (∑ i in Finset.Icc b (b + (k : Int)), i) := by
      rw [two_mul_sum_Icc k b]; ring
    rw [h1, Int.mul_fdiv_cancel_left _ (by norm_num)]

/-! ## Helper lemmas: include processing, BOM, inline comments -/

/-- A well-formed `@include` line whose target exists and whose recursive
evaluation succeeds adds the included sum and keeps the includer's base. -/
lemma evalLine_include_ok (evalInc) (fs : FS) (path : PyPath) (strict : Bool)
    (raw : List Char) (total : Int) (base : Nat) (stack stack2 : List PyPath)
    (c0 rem : List Char) (v : Int)
    (h1 : (pyStrip raw).head? = some '@')
    (h2 : pySplit1 (pyStrip raw) = [c0, rem])
    (h3 : c0.map pyToLower = "@include".toList)
    (h4 : ¬(pyStrip rem).isEmpty)
    (h5 : fs.pathExists (resolveInclude path (pyStrip rem)) = true)
    (h6 : evalInc (resolveInclude path (pyStrip rem)) base stack = (some (.ok v), stack2)) :
    evalLine evalInc fs path strict raw total base stack = .cont (total + v) base stack2 := by
  rw [evalLine_directive_dispatch _ _ _ _ _ _ _ _ h1, h2,
    evalDirectiveLine_include _ _ _ _ _ _ _ _ h3]
  simp only [evalIncludeDir]
  rw [if_neg (by simpa using h4), if_pos h5, h6]

/-- A well-formed `@include` line whose resolved target does not exist
raises `IncludeIOError` carrying that resolved target. -/
lemma evalLine_include_missing (evalInc) (fs : FS) (path : PyPath) (strict : Bool)
    (raw : List Char) (total : Int) (base : Nat) (stack : List PyPath)
    (c0 rem : List Char)
    (h1 : (pyStrip raw).head? = some '@')
    (h2 : pySplit1 (pyStrip raw) = [c0, rem])
    (h3 : c0.map pyToLower = "@include".toList)
    (h4 : ¬(pyStrip rem).isEmpty)
    (h5 : fs.pathExists (resolveInclude path (pyStrip rem)) = false) :
    evalLine evalInc fs path strict raw total base stack =
      .err (.includeIOError (resolveInclude path (pyStrip rem))) stack := by
  rw [evalLine_directive_dispatch _ _ _ _ _ _ _ _ h1, h2,
    evalDirectiveLine_include _ _ _ _ _ _ _ _ h3]
  simp only [evalIncludeDir]
  rw [if_neg (by simpa using h4)]
  rw [if_neg (by simp [h5])]

/-- `_strip_utf8_bom` removes every leading BOM character. -/
lemma stripUtf8Bom_eq_dropWhile (cs : List Char) :
    stripUtf8Bom cs = cs.dropWhile (fun c => c == '﻿') := by
  cases cs with
  | nil => rfl
  | cons c tl =>
    by_cases hc : c = '﻿'
    · subst hc; rfl
    · have hcb : (c == '﻿') = false := by
        cases hcb : c == '﻿' with
        | false => rfl
        | true => exact absurd (eq_of_beq hcb) hc
      simp [stripUtf8Bom, List.dropWhile, hcb]

/-- `sicGo` keeps the whole suffix when no `#` in it is preceded by a
whitespace character. -/
lemma sicGo_of_chain (cs : List Char) : ∀ (prev : Char),
    List.Chain' (fun a b => b = '#' → pyIsSpace a = false) (prev :: cs) →
    sicGo prev cs = cs := by
  induction cs with
  | nil => intro prev _; rfl
  | cons c rest ih =>
    intro prev h
    rw [List.chain'_cons] at h
    obtain ⟨h1, h2⟩ := h
    have hcond : (c == '#' && pyIsSpace prev) = false := by
      cases hc : c == '#' with
      | false => simp [hc]
      | true =>
        simp only [hc, Bool.true_and]
        exact h1 (eq_of_beq hc)
    simp only [sicGo, hcond, Bool.false_eq_true, if_false, List.cons.injEq, true_and]
    exact ih c h2

/-! ## The claims -/

/-- **C1** (confirmed): for endpoints `a`, `b` parsed from a `@range`
directive, the amount added to the running total is exactly the sum of all
integers from `min a b` to `max a b` inclusive; the computation is
direction-insensitive, and the floor-division closed form agrees with the
direct mathematical sum. -/
theorem range_sum_is_mathematical_sum :
    (∀ a b : Int, sumInclusiveRange a b = ∑ i in Finset.Icc (min a b) (max a b), i)
    ∧ (∀ a b : Int, sumInclusiveRange a b = sumInclusiveRange b a)
    ∧ (∀ (rem aS bS : List Char) (a b total : Int) (base : Nat) (stack : List PyPath),
        splitDotsFirst (pyStrip rem) = some (aS, bS) →
        parseIntToken aS base = some a →
        parseIntToken bS base = some b →
        evalRangeDir rem total base stack =
          .cont (total + ∑ i in Finset.Icc (min a b) (max a b), i) base stack) := by
  refine ⟨sumInclusiveRange_eq, ?_, ?_⟩
  · intro a b
    rw [sumInclusiveRange_eq, sumInclusiveRange_eq, min_comm, max_comm]
  · intro rem aS bS a b total base stack h1 h2 h3
    simp only [evalRangeDir, h1, h2, h3, sumInclusiveRange_eq]

theorem range_sum_is_mathematical_sum_witness :
    evalRangeDir ("5..3".toList) 0 10 [] =
      .cont (0 + ∑ i in Finset.Icc (min (5 : Int) 3) (max (5 : Int) 3), i) 10 [] :=
  range_sum_is_mathematical_sum.2.2 ("5..3".toList) ("5".toList) ("3".toList)
    5 3 0 10 [] rfl rfl rfl

/-- **C2** (code bug): for `@range ..5` — the remainder contains `..` but
the left endpoint token is empty — the `ValueError` raised by
`_parse_int_token` is not converted to `ParseError`; it escapes
`_eval_file` and `main` has no handler for it, so a raw traceback reaches
the caller instead of one of the four named error kinds. -/
theorem range_empty_endpoint_uncaught :
    (evalFile 1 (fsOfPairs [("f", "@range ..5\n")]) (pathOfString "f") 10 false []).1
      = some (.error (.valueError "invalid integer token in @range".toList))
    ∧ runMain 1 (fsOfPairs [("f", "@range ..5\n")]) (pathOfString "f") 10 false
      = .uncaught ("invalid integer token in @range".toList)
    ∧ (∀ m p, (RunOutcome.uncaught m == RunOutcome.errParse p) = false) :=
  ⟨rfl, rfl, fun m p => by rw [beq_eq_false_iff_ne]; exact fun h => RunOutcome.noConfusion h⟩

/-- **C3** (confirmed): an `@include` evaluates the target starting from
the includer's current base (the recursive call receives `base`), and
after the include returns the includer continues with the very same
`base`; the example file `@base 16`, `ff`, `@base 10`, `10` totals 265. -/
theorem include_base_frame :
    (∀ (evalInc : PyPath → Nat → List PyPath → Option (Except EvalErr Int) × List PyPath)
       (fs : FS) (path : PyPath) (strict : Bool) (raw : List Char)
       (total : Int) (base : Nat) (stack stack2 : List PyPath)
       (c0 rem : List Char) (v : Int),
        (pyStrip raw).head? = some '@' →
        pySplit1 (pyStrip raw) = [c0, rem] →
        c0.map pyToLower = "@include".toList →
        ¬(pyStrip rem).isEmpty →
        fs.pathExists (resolveInclude path (pyStrip rem)) = true →
        evalInc (resolveInclude path (pyStrip rem)) base stack = (some (.ok v), stack2) →
        evalLine evalInc fs path strict raw total base stack = .cont (total + v) base stack2)
    ∧ (evalFile 1 (fsOfPairs [("f", "@base 16\nff\n@base 10\n10\n")])
        (pathOfString "f") 10 false []).1 = some (.ok 265) :=
  ⟨fun evalInc fs path strict raw total base stack stack2 c0 rem v h1 h2 h3 h4 h5 h6 =>
    evalLine_include_ok evalInc fs path strict raw total base stack stack2 c0 rem v
      h1 h2 h3 h4 h5 h6, rfl⟩

theorem include_base_frame_witness :
    evalLine (fun _ _ st => (some (.ok 7), st)) (fsOfPairs [("sub", "")])
      (pathOfString "main") false ("@include sub".toList) 0 10 [] =
      .cont (0 + 7) 10 [] :=
  include_base_frame.1 (fun _ _ st => (some (.ok 7), st)) (fsOfPairs [("sub", "")])
    (pathOfString "main") false ("@include sub".toList) 0 10 [] []
    ("@include".toList) ("sub".toList) 7 rfl rfl rfl (by decide) rfl rfl

/-- **C4** (confirmed): a call whose canonical identity is already on the
recursion stack fails with `IncludeCycleError`; every call returns with
the recursion stack it was given (the pushed identity is popped on every
exit path); and pushing a fresh identity onto a duplicate-free stack keeps
it duplicate-free. -/
theorem recursion_stack_invariant :
    (∀ (fuel : Nat) (fs : FS) (p : PyPath) (base : Nat) (strict : Bool)
       (stack : List PyPath),
        resolveId fs p ∈ stack →
        evalFile (fuel + 1) fs p base strict stack =
          (some (.error (.includeCycleError (stack ++ [resolveId fs p]))), stack))
    ∧ (∀ (fuel : Nat) (fs : FS) (p : PyPath) (base : Nat) (strict : Bool)
       (stack : List PyPath), (evalFile fuel fs p base strict stack).2 = stack)
    ∧ (∀ (fs : FS) (p : PyPath) (stack : List PyPath),
        stack.Nodup → resolveId fs p ∉ stack → (stack ++ [resolveId fs p]).Nodup) := by
  refine ⟨?_, evalFile_stack, ?_⟩
  · intro fuel fs p base strict stack h
    simp only [evalFile]
    rw [if_pos h]
  · intro fs p stack h1 h2
    simp [List.nodup_append, h1, h2]

theorem recursion_stack_invariant_witness :
    resolveId (fsOfPairs []) (pathOfString "f") ∈ [pathOfString "f"]
    ∧ evalFile 1 (fsOfPairs []) (pathOfString "f") 10 false [pathOfString "f"] =
        (some (.error (.includeCycleError
          ([pathOfString "f"] ++ [resolveId (fsOfPairs []) (pathOfString "f")]))),
         [pathOfString "f"]) :=
  ⟨by decide,
   recursion_stack_invariant.1 0 (fsOfPairs []) (pathOfString "f") 10 false
     [pathOfString "f"] (by decide)⟩

/-- **C5** (code bug): the token parser accepts tokens the claimed ASCII
grammar rejects, because `_parse_int_token` delegates to bare
`int(t, base)`: the Unicode digit `١` (U+0661) parses as 1 in base 10 —
the repository's own tests require it to be an invalid token (file `١`
must sum to 0 in non-strict mode, yet the code sums 1) — and `0x1A`
parses as 26 in base 16 via the radix prefix. -/
theorem token_parser_accepts_beyond_claimed_grammar :
    parseIntToken ("١".toList) 10 = some 1
    ∧ claimValidToken ("١".toList) 10 = false
    ∧ (evalFile 1 (fsOfPairs [("f", "١\n")]) (pathOfString "f") 10 false []).1
        = some (.ok 1)
    ∧ parseIntToken ("0x1A".toList) 16 = some 26
    ∧ claimValidToken ("0x1A".toList) 16 = false :=
  ⟨rfl, rfl, rfl, rfl, rfl⟩

/-- **C6** counterexample: on a file starting with two BOM characters the
code strips both, so the second BOM does not remain part of the first
line's content as the claim states. -/
theorem bom_strip_counterexample :
    stripUtf8Bom ("﻿﻿1".toList) = "1".toList
    ∧ (stripUtf8Bom ("﻿﻿1".toList) == "﻿1".toList) = false :=
  ⟨rfl, rfl⟩

/-- **C6** (amended): before splitting the text into lines, evaluation
strips every consecutive leading BOM character (`lstrip`), and in
particular the file `﻿1\n2\n` sums to 3. -/
theorem bom_all_stripped_before_splitlines :
    (∀ txt : List Char,
        readLinesOfText txt = pySplitlines (txt.dropWhile (fun c => c == '﻿')))
    ∧ (evalFile 1 (fsOfPairs [("f", "﻿1\n2\n")]) (pathOfString "f") 10 false []).1
        = some (.ok 3) := by
  constructor
  · intro txt
    rw [readLinesOfText, stripUtf8Bom_eq_dropWhile]
  · rfl

/-- **C7** (confirmed): a relative `@include` target is resolved against
the including file's parent directory, and a missing resolved target
raises `IncludeIOError` carrying the resolved path; a missing top-level
file is reported by `main` before any evaluation happens (any fuel, even
zero), with an outcome distinct from the include error. -/
theorem include_missing_vs_toplevel_missing :
    (∀ (evalInc : PyPath → Nat → List PyPath → Option (Except EvalErr Int) × List PyPath)
       (fs : FS) (path : PyPath) (strict : Bool) (raw : List Char)
       (total : Int) (base : Nat) (stack : List PyPath) (c0 rem : List Char),
        (pyStrip raw).head? = some '@' →
        pySplit1 (pyStrip raw) = [c0, rem] →
        c0.map pyToLower = "@include".toList →
        ¬(pyStrip rem).isEmpty →
        (pathFromString (pyStrip rem)).absolute = false →
        fs.pathExists (joinPath (parentPath path) (pathFromString (pyStrip rem))) = false →
        evalLine evalInc fs path strict raw total base stack =
          .err (.includeIOError
            (joinPath (parentPath path) (pathFromString (pyStrip rem)))) stack)
    ∧ (∀ (fuel : Nat) (fs : FS) (input : PyPath) (base : Nat) (strict : Bool),
        2 ≤ base → base ≤ 36 → fs.pathExists input = false →
        runMain fuel fs input base strict = .topLevelNotFound input)
    ∧ (∀ p q, (RunOutcome.topLevelNotFound p == RunOutcome.errIncludeMissing q) = false) := by
  refine ⟨?_, ?_, fun p q => by
    rw [beq_eq_false_iff_ne]; exact fun h => RunOutcome.noConfusion h⟩
  · intro evalInc fs path strict raw total base stack c0 rem h1 h2 h3 h4 habs hex
    have hri : resolveInclude path (pyStrip rem)
        = joinPath (parentPath path) (pathFromString (pyStrip rem)) := by
      simp [resolveInclude, habs]
    rw [← hri] at hex ⊢
    exact evalLine_include_missing evalInc fs path strict raw total base stack c0 rem
      h1 h2 h3 h4 hex
  · intro fuel fs input base strict hb1 hb2 hex
    simp [runMain, hex, hb1, hb2]

theorem include_missing_vs_toplevel_missing_witness :
    evalLine (fun _ _ st => (none, st)) (fsOfPairs []) (pathOfString "dir/main.txt")
      false ("@include sub/x.txt".toList) 0 10 [] =
      .err (.includeIOError
        (joinPath (parentPath (pathOfString "dir/main.txt"))
          (pathFromString (pyStrip ("sub/x.txt".toList))))) [] :=
  include_missing_vs_toplevel_missing.1 (fun _ _ st => (none, st)) (fsOfPairs [])
    (pathOfString "dir/main.txt") false ("@include sub/x.txt".toList) 0 10 []
    ("@include".toList) ("sub/x.txt".toList) rfl rfl rfl (by decide) rfl rfl

/-- **C8** (confirmed): a data line whose remaining text fails token
parsing is fatal in strict mode with a `ParseError` naming the offending
token, and in non-strict mode is skipped: the total and all state are
unchanged and evaluation continues with the remaining lines. -/
theorem invalid_data_line_strict_vs_lenient :
    ∀ (evalInc : PyPath → Nat → List PyPath → Option (Except EvalErr Int) × List PyPath)
      (fs : FS) (path : PyPath) (raw : List Char) (rest : List (List Char))
      (total : Int) (base : Nat) (stack : List PyPath),
      ¬(pyStrip raw).isEmpty →
      (pyStrip raw).head? ≠ some '#' →
      (pyStrip raw).head? ≠ some '@' →
      ¬(pyStrip (splitInlineComment raw)).isEmpty →
      parseIntToken (pyStrip (splitInlineComment raw)) base = none →
      (evalLines evalInc fs path true (raw :: rest) total base stack
          = (some (.error (.parseError
              ("invalid integer token: ".toList ++ pyStrip (splitInlineComment raw)))),
             stack))
      ∧ (evalLines evalInc fs path false (raw :: rest) total base stack
          = evalLines evalInc fs path false rest total base stack) := by
  intro evalInc fs path raw rest total base stack h1 h2 h3 h4 h5
  have hstrict := evalLine_data_dispatch evalInc fs path true raw total base stack h1 h2 h3
  have hlen := evalLine_data_dispatch evalInc fs path false raw total base stack h1 h2 h3
  have hd : evalDataLine true raw total base stack
      = .err (.parseError
          ("invalid integer token: ".toList ++ pyStrip (splitInlineComment raw))) stack := by
    simp only [evalDataLine]
    rw [if_neg (by simpa using h4), h5]
    simp
  have hd2 : evalDataLine false raw total base stack = .cont total base stack := by
    simp only [evalDataLine]
    rw [if_neg (by simpa using h4), h5]
    simp
  constructor
  · simp only [evalLines, hstrict, hd]
  · simp only [evalLines, hlen, hd2]

theorem invalid_data_line_strict_vs_lenient_witness :
    (evalLines (fun _ _ st => (none, st)) (fsOfPairs []) (pathOfString "f") true
        (["not_a_number".toList]) 0 10 []
      = (some (.error (.parseError
          ("invalid integer token: ".toList ++ pyStrip (splitInlineComment ("not_a_number".toList))))), []))
    ∧ (evalLines (fun _ _ st => (none, st)) (fsOfPairs []) (pathOfString "f") false
        (["not_a_number".toList]) 0 10 []
      = evalLines (fun _ _ st => (none, st)) (fsOfPairs []) (pathOfString "f") false [] 0 10 []) :=
  invalid_data_line_strict_vs_lenient (fun _ _ st => (none, st)) (fsOfPairs [])
    (pathOfString "f") ("not_a_number".toList) [] 0 10 []
    (by decide) (by decide) (by decide) (by decide) rfl

/-- **C9** (confirmed): an inline comment starts only at the first `#`
preceded by a whitespace character — a line with no whitespace-preceded
`#` (and not starting with `#`) is kept whole — so `4#bad` is one invalid
token: skipped in non-strict mode, fatal in strict mode; `4 #bad` is the
token `4` followed by a comment and sums to 4. -/
theorem inline_comment_needs_preceding_whitespace :
    (∀ raw : List Char, raw.head? ≠ some '#' →
        List.Chain' (fun a b => b = '#' → pyIsSpace a = false) raw →
        splitInlineComment raw = raw)
    ∧ (evalFile 1 (fsOfPairs [("f", "4#bad\n")]) (pathOfString "f") 10 false []).1
        = some (.ok 0)
    ∧ (evalFile 1 (fsOfPairs [("f", "4#bad\n")]) (pathOfString "f") 10 true []).1
        = some (.error (.parseError ("invalid integer token: 4#bad".toList)))
    ∧ (evalFile 1 (fsOfPairs [("f", "4 #bad\n")]) (pathOfString "f") 10 false []).1
        = some (.ok 4) := by
  refine ⟨?_, rfl, rfl, rfl⟩
  intro raw hhead hchain
  cases raw with
  | nil => rfl
  | cons c tl =>
    have hc : (c == '#') = false := by
      cases hc : c == '#' with
      | false => rfl
      | true => exact absurd (eq_of_beq hc) (fun he => hhead (by rw [he]; rfl))
    simp only [splitInlineComment, hc, Bool.false_eq_true, if_false, List.cons.injEq,
      true_and]
    exact sicGo_of_chain tl c hchain

theorem inline_comment_needs_preceding_whitespace_witness :
    splitInlineComment ("4#bad".toList) = "4#bad".toList :=
  inline_comment_needs_preceding_whitespace.1 ("4#bad".toList) (by decide)
    (by simp [List.chain'_cons, pyIsSpace])

/-- **C10** (confirmed): two `@include` directives for the same target in
one file evaluate the target twice, each contributing its sum; there is no
`IncludeCycleError` because membership is tested against the active
recursion stack, which each returned include call has restored. -/
theorem repeated_include_no_cycle :
    ∀ (fuel : Nat) (fs : FS) (path : PyPath) (strict : Bool)
      (raw : List Char) (rest : List (List Char)) (c0 rem : List Char)
      (total s : Int) (base : Nat) (stack : List PyPath),
      (pyStrip raw).head? = some '@' →
      pySplit1 (pyStrip raw) = [c0, rem] →
      c0.map pyToLower = "@include".toList →
      ¬(pyStrip rem).isEmpty →
      fs.pathExists (resolveInclude path (pyStrip rem)) = true →
      (evalFile fuel fs (resolveInclude path (pyStrip rem)) base strict stack).1
        = some (.ok s) →
      evalLines (fun p b st => evalFile fuel fs p b strict st) fs path strict
          (raw :: raw :: rest) total base stack
        = evalLines (fun p b st => evalFile fuel fs p b strict st) fs path strict
            rest (total + s + s) base stack := by
  intro fuel fs path strict raw rest c0 rem total s base stack h1 h2 h3 h4 h5 h6
  have hstk := evalFile_stack fuel fs (resolveInclude path (pyStrip rem)) base strict stack
  have hfull : evalFile fuel fs (resolveInclude path (pyStrip rem)) base strict stack
      = (some (.ok s), stack) := by
    rw [Prod.ext_iff]
    exact ⟨h6, hstk⟩
  have hline := evalLine_include_ok (fun p b st => evalFile fuel fs p b strict st)
    fs path strict raw total base stack stack c0 rem s h1 h2 h3 h4 h5 hfull
  have hline2 := evalLine_include_ok (fun p b st => evalFile fuel fs p b strict st)
    fs path strict raw (total + s) base stack stack c0 rem s h1 h2 h3 h4 h5 hfull
  simp only [evalLines, hline, hline2]

theorem repeated_include_no_cycle_witness :
    evalLines
        (fun p b st => evalFile 1 (fsOfPairs [("a", "@include b\n@include b"), ("b", "5")]) p b false st)
        (fsOfPairs [("a", "@include b\n@include b"), ("b", "5")]) (pathOfString "a") false
        (["@include b".toList, "@include b".toList]) 0 10 []
      = evalLines
          (fun p b st => evalFile 1 (fsOfPairs [("a", "@include b\n@include b"), ("b", "5")]) p b false st)
          (fsOfPairs [("a", "@include b\n@include b"), ("b", "5")]) (pathOfString "a") false
          [] (0 + 5 + 5) 10 [] :=
  repeated_include_no_cycle 1 (fsOfPairs [("a", "@include b\n@include b"), ("b", "5")])
    (pathOfString "a") false ("@include b".toList) [] ("@include".toList) ("b".toList)
    0 5 10 [] rfl rfl rfl (by decide) rfl rfl
